import Mathlib

/-!
Verification development for the yfinance collector script (`collector.py`).

The script fetches one day of 1-minute OHLCV bars per ticker, resamples them
into coarser intervals with pandas (`Resampler.resample`), and uploads each
resulting table as a CSV to object storage (`Collector.save_ticker_data`).

Shallow embedding choices:
* A pandas DataFrame of price bars becomes `List Bar`, ordered as the frame's
  rows are.  Timestamps are minutes since the epoch (`Nat`); prices are exact
  rationals (`ℚ`).  A missing value (pandas `NaN`) in one of the four price
  columns is `Option.none`; the summed columns (`volume`, `dividends`,
  `stock_splits`) are plain `ℚ` — their aggregation (`sum`) maps empty input
  to `0`, exactly as pandas does, so `none` never arises for them.
* `df.resample(freq).agg(agg_dict)` is embedded for the minute-based
  frequencies `nT`, `nH`, `nD` (n minutes / hours / days).  pandas places each
  row in the bin `origin + m * floor((t - origin) / m)` where the default
  origin (`start_day`) is midnight of the day of the earliest timestamp, and
  emits one output row per bin from the bin of the earliest timestamp to the
  bin of the latest, empty bins included.  The per-column aggregators `first`,
  `last`, `max`, `min` skip missing values; `sum` yields `0` on an empty bin.
  Month-based frequencies (`nM`) bucket by calendar month and are outside this
  minute-arithmetic model, so `Resampler.resample` returns `none` for them.
* Python's `re.match('^\dM$', s)` is embedded with `\d` as Python defines it
  for `str` patterns — any Unicode decimal digit (category `Nd`), given here
  as an explicit code-point range table — and with `$` matching both at the
  end of the string and just before a trailing newline, as Python's `re`
  defines `$`.
-/

/-- One row of the bar table: the columns of `YFinanceCollector.columns`.
`datetime` is in minutes since the epoch; the four price columns are
`Option ℚ`, with `none` standing for pandas `NaN`. -/
structure Bar where
  datetime : Nat
  «open» : Option ℚ
  high : Option ℚ
  low : Option ℚ
  close : Option ℚ
  volume : ℚ
  dividends : ℚ
  stock_splits : ℚ
  deriving Repr, DecidableEq

/-- A BarSeries: the rows of one DataFrame, in row order. -/
abbrev BarSeries := List Bar

/-- `YFinanceCollector.columns` from the source: the column names assigned to
the fetched frame, in order. -/
def YFinanceCollector.columns : List String :=
  ["datetime", "open", "high", "low",
   "close", "volume", "dividends",
   "stock_splits"]

/-- `Resampler.agg_dict` from the source, as an ordered association list
(pandas keeps the dict's key order for the output columns). -/
def Resampler.agg_dict : List (String × String) :=
  [("open", "first"),
   ("high", "max"),
   ("low", "min"),
   ("close", "last"),
   ("volume", "sum"),
   ("dividends", "sum"),
   ("stock_splits", "sum")]

/-- Python `s.replace('M', 'T')`: replace every 'M' character by 'T'. -/
def pyReplaceMT (s : String) : String :=
  String.mk (s.data.map (fun c => if c == 'M' then 'T' else c))

/-- The code-point ranges of the Unicode decimal digits (category `Nd`):
the character class Python's regex `\d` matches in a `str` pattern. -/
def pyDigitRanges : List (Nat × Nat) :=
  [(0x30, 0x39), (0x660, 0x669), (0x6F0, 0x6F9), (0x7C0, 0x7C9),
   (0x966, 0x96F), (0x9E6, 0x9EF), (0xA66, 0xA6F), (0xAE6, 0xAEF),
   (0xB66, 0xB6F), (0xBE6, 0xBEF), (0xC66, 0xC6F), (0xCE6, 0xCEF),
   (0xD66, 0xD6F), (0xDE6, 0xDEF), (0xE50, 0xE59), (0xED0, 0xED9),
   (0xF20, 0xF29), (0x1040, 0x1049), (0x1090, 0x1099), (0x17E0, 0x17E9),
   (0x1810, 0x1819), (0x1946, 0x194F), (0x19D0, 0x19D9), (0x1A80, 0x1A89),
   (0x1A90, 0x1A99), (0x1B50, 0x1B59), (0x1BB0, 0x1BB9), (0x1C40, 0x1C49),
   (0x1C50, 0x1C59), (0xA620, 0xA629), (0xA8D0, 0xA8D9), (0xA900, 0xA909),
   (0xA9D0, 0xA9D9), (0xA9F0, 0xA9F9), (0xAA50, 0xAA59), (0xABF0, 0xABF9),
   (0xFF10, 0xFF19), (0x104A0, 0x104A9), (0x10D30, 0x10D39), (0x11066, 0x1106F),
   (0x110F0, 0x110F9), (0x11136, 0x1113F), (0x111D0, 0x111D9), (0x112F0, 0x112F9),
   (0x11450, 0x11459), (0x114D0, 0x114D9), (0x11650, 0x11659), (0x116C0, 0x116C9),
   (0x11730, 0x11739), (0x118E0, 0x118E9), (0x11950, 0x11959), (0x11C50, 0x11C59),
   (0x11D50, 0x11D59), (0x11DA0, 0x11DA9), (0x16A60, 0x16A69), (0x16AC0, 0x16AC9),
   (0x16B50, 0x16B59), (0x1D7CE, 0x1D7FF), (0x1E140, 0x1E149), (0x1E2F0, 0x1E2F9),
   (0x1E950, 0x1E959), (0x1FBF0, 0x1FBF9)]

/-- Python's regex `\d` on a single character: a Unicode decimal digit. -/
def isPyDigit (c : Char) : Bool :=
  pyDigitRanges.any (fun r => r.1 ≤ c.toNat && c.toNat ≤ r.2)

/-- Python `re.match('^\dM$', s)` as a Boolean: one Unicode decimal digit
then 'M', where `$` also matches just before a trailing newline. -/
def matchesDigitM (s : String) : Bool :=
  match s.data with
  | [d, c] => isPyDigit d && c == 'M'
  | [d, c, n] => isPyDigit d && c == 'M' && n == '\n'
  | _ => false

/-- `Resampler.format_interval` from the source: rewrite `\dM` to use 'T'
(minutes) instead of 'M' (months); other strings pass through unchanged. -/
def Resampler.format_interval (interval : String) : String :=
  if matchesDigitM interval then pyReplaceMT interval else interval

/-- Decimal value of a digit string. -/
def digitsToNat (l : List Char) : Nat :=
  l.foldl (fun n c => n * 10 + (c.toNat - '0'.toNat)) 0

/-- Bin width, in minutes, of a pandas offset string: `nT` is n minutes,
`nH` n hours, `nD` n days, with n defaulting to 1.  Month-based and other
non-minute frequencies yield `none`. -/
def freqMinutes (s : String) : Option Nat :=
  let digits := s.data.takeWhile Char.isDigit
  let unit := s.data.dropWhile Char.isDigit
  let n := if digits.isEmpty then 1 else digitsToNat digits
  match unit with
  | ['T'] => some n
  | ['H'] => some (n * 60)
  | ['D'] => some (n * 1440)
  | _ => none

/-- Earliest `datetime` in a series (`df.index.min()`), `none` when empty. -/
def minTs : BarSeries → Option Nat
  | [] => none
  | b :: t => some (t.foldl (fun a c => min a c.datetime) b.datetime)

/-- Latest `datetime` in a series (`df.index.max()`), `none` when empty. -/
def maxTs : BarSeries → Option Nat
  | [] => none
  | b :: t => some (t.foldl (fun a c => max a c.datetime) b.datetime)

/-- The start of the bin containing `ts`, for bin width `m` anchored at
`origin` (pandas: `origin + m * floor((ts - origin) / m)`). -/
def bucketStart (origin m ts : Nat) : Nat :=
  origin + (ts - origin) / m * m

/-- The rows of `data` falling in the bin starting at `b`. -/
def bucketBars (m origin : Nat) (data : BarSeries) (b : Nat) : BarSeries :=
  data.filter (fun bar => bucketStart origin m bar.datetime == b)

/-- `first` aggregation of pandas on an optional column: the first present
value, `none` if the bin has none. -/
def aggFirst (l : List (Option ℚ)) : Option ℚ :=
  (l.filterMap id).head?

/-- `last` aggregation: the last present value. -/
def aggLast (l : List (Option ℚ)) : Option ℚ :=
  (l.filterMap id).getLast?

/-- One step of a running maximum over an optional accumulator. -/
def maxStep (a : Option ℚ) (x : ℚ) : Option ℚ :=
  match a with
  | none => some x
  | some q => some (max q x)

/-- One step of a running minimum over an optional accumulator. -/
def minStep (a : Option ℚ) (x : ℚ) : Option ℚ :=
  match a with
  | none => some x
  | some q => some (min q x)

/-- `max` aggregation: maximum of the present values, `none` if none. -/
def aggMax (l : List (Option ℚ)) : Option ℚ :=
  (l.filterMap id).foldl maxStep none

/-- `min` aggregation: minimum of the present values, `none` if none. -/
def aggMin (l : List (Option ℚ)) : Option ℚ :=
  (l.filterMap id).foldl minStep none

/-- One output row of `df.resample(...).agg(Resampler.agg_dict)`: the bin
label `b` plus each column aggregated over the bin's rows, per `agg_dict`. -/
def aggBucket (m origin : Nat) (data : BarSeries) (b : Nat) : Bar :=
  let bs := bucketBars m origin data b
  { datetime := b
    «open» := aggFirst (bs.map (·.«open»))
    high := aggMax (bs.map (·.high))
    low := aggMin (bs.map (·.low))
    close := aggLast (bs.map (·.close))
    volume := (bs.map (·.volume)).sum
    dividends := (bs.map (·.dividends)).sum
    stock_splits := (bs.map (·.stock_splits)).sum }

/-- Midnight of the day containing `tmin`: pandas' default resampling
`origin='start_day'`, with days of 1440 minutes. -/
def seriesOrigin (tmin : Nat) : Nat := tmin / 1440 * 1440

/-- `df.resample(freq)` for a bin width of `m` minutes: bins anchored at
midnight of the earliest row's day (pandas default `origin='start_day'`),
one output row per bin from the earliest row's bin to the latest row's bin,
empty bins included.  Empty input gives empty output. -/
def resampleMinutes (m : Nat) (data : BarSeries) : BarSeries :=
  match minTs data, maxTs data with
  | some tmin, some tmax =>
    let origin := seriesOrigin tmin
    let b0 := bucketStart origin m tmin
    let cnt := (bucketStart origin m tmax - b0) / m + 1
    (List.range' b0 cnt m).map (fun b => aggBucket m origin data b)
  | _, _ => []

/-- `Resampler.resample` from the source: normalize the interval string with
`format_interval`, then resample.  `none` marks a frequency outside the
minute-based model (pandas would bucket `nM` by calendar month). -/
def Resampler.resample (data : BarSeries) (interval : String) : Option BarSeries :=
  match freqMinutes (Resampler.format_interval interval) with
  | some m => some (resampleMinutes m data)
  | none => none

/-- `Collector.collect_interval` from the source: the base interval fetched
from the provider. -/
def Collector.collect_interval : String := "1M"

/-- `Collector.intervals` from the source: the intervals uploaded per ticker,
in loop order. -/
def Collector.intervals : List String := ["1M", "5M", "1H", "1D"]

/-- The inner loop of `Collector.collect` for one ticker: for each interval,
the `data` variable is reassigned to the resample of its current value
(except for the base interval), and the current value is uploaded.  Returns
the list of (interval, series) pairs passed to `save_ticker_data`, in order;
`none` if a resample falls outside the minute-based model. -/
def collectLoop (data : BarSeries) : List String → Option (List (String × BarSeries))
  | [] => some []
  | interval :: rest =>
    let step := if interval == Collector.collect_interval
      then some data
      else Resampler.resample data interval
    match step with
    | none => none
    | some next =>
      match collectLoop next rest with
      | none => none
      | some tail => some ((interval, next) :: tail)

/-- The uploads produced by `Collector.collect` for one ticker whose fetched
base series is `base`. -/
def Collector.collectUploads (base : BarSeries) : Option (List (String × BarSeries)) :=
  collectLoop base Collector.intervals

/-- Left-pad a numeral with zeros to width `w`, as `strftime`'s `%Y`/`%m`/`%d`
field padding does. -/
def padZero (w n : Nat) : String :=
  let s := toString n
  String.mk (List.replicate (w - s.length) '0') ++ s

/-- `date.strftime('%Y%m%d')` for year/month/day `y`/`mo`/`d`. -/
def strftimeYYYYMMDD (y mo d : Nat) : String :=
  padZero 4 y ++ padZero 2 mo ++ padZero 2 d

/-- `Collector.filename_format` applied to a formatted date:
`'{date}.csv'.format(date=...)`. -/
def Collector.filename_format (date : String) : String := date ++ ".csv"

/-- The `save_path` built by `Collector.save_ticker_data`:
`f'{self.upload_path}/{ticker}/{interval}/{filename}'`. -/
def Collector.save_path (upload_path ticker interval : String) (y mo d : Nat) : String :=
  upload_path ++ "/" ++ ticker ++ "/" ++ interval ++ "/" ++
    Collector.filename_format (strftimeYYYYMMDD y mo d)

/-- Column header of the CSV written by `Collector.save` for a resampled
frame: `set_index('datetime')` then `agg(agg_dict)` leaves the `agg_dict`
keys as columns in dict order, and `reset_index()` restores `datetime` in
front. -/
def resampledColumns : List String :=
  "datetime" :: Resampler.agg_dict.map Prod.fst

/-- A bar of the end-to-end scenario in the spec: `open=100, high=101,
low=99, close=100.5, volume=1000` at minute `t`. -/
def scnBar (t : Nat) : Bar :=
  { datetime := t, «open» := some 100, high := some 101, low := some 99,
    close := some (201/2), volume := 1000, dividends := 0, stock_splits := 0 }

/-- Sixty consecutive 1-minute scenario bars starting at 2024-01-02T09:30
(= minute 28403130 since the epoch: 19724 days plus 9 h 30 min). -/
def sixtyBars : BarSeries :=
  [scnBar 28403130,
   scnBar 28403131,
   scnBar 28403132,
   scnBar 28403133,
   scnBar 28403134,
   scnBar 28403135,
   scnBar 28403136,
   scnBar 28403137,
   scnBar 28403138,
   scnBar 28403139,
   scnBar 28403140,
   scnBar 28403141,
   scnBar 28403142,
   scnBar 28403143,
   scnBar 28403144,
   scnBar 28403145,
   scnBar 28403146,
   scnBar 28403147,
   scnBar 28403148,
   scnBar 28403149,
   scnBar 28403150,
   scnBar 28403151,
   scnBar 28403152,
   scnBar 28403153,
   scnBar 28403154,
   scnBar 28403155,
   scnBar 28403156,
   scnBar 28403157,
   scnBar 28403158,
   scnBar 28403159,
   scnBar 28403160,
   scnBar 28403161,
   scnBar 28403162,
   scnBar 28403163,
   scnBar 28403164,
   scnBar 28403165,
   scnBar 28403166,
   scnBar 28403167,
   scnBar 28403168,
   scnBar 28403169,
   scnBar 28403170,
   scnBar 28403171,
   scnBar 28403172,
   scnBar 28403173,
   scnBar 28403174,
   scnBar 28403175,
   scnBar 28403176,
   scnBar 28403177,
   scnBar 28403178,
   scnBar 28403179,
   scnBar 28403180,
   scnBar 28403181,
   scnBar 28403182,
   scnBar 28403183,
   scnBar 28403184,
   scnBar 28403185,
   scnBar 28403186,
   scnBar 28403187,
   scnBar 28403188,
   scnBar 28403189]

/-- Two scenario bars ten minutes apart: minutes 0 and 10 of day 0, leaving
the 5-minute bin starting at minute 5 without any contributing bar. -/
def gapBars : BarSeries := [scnBar 0, scnBar 10]

/-- A single scenario bar at minute 0. -/
def oneBar : BarSeries := [scnBar 0]

/-- The single 5-minute output row obtained by resampling `oneBar`. -/
def oneOut : Bar :=
  { datetime := 0, «open» := some 100, high := some 101, low := some 99,
    close := some (201/2), volume := 1000, dividends := 0, stock_splits := 0 }

/-- The output row of an empty 5-minute bin starting at minute 5: all four
price columns missing, zero sums. -/
def emptyBin5 : Bar :=
  { datetime := 5, «open» := none, high := none, low := none,
    close := none, volume := 0, dividends := 0, stock_splits := 0 }

/-- The three 5-minute output rows obtained by resampling `gapBars`:
the bin at minute 5 is empty but still present. -/
def gapOut : BarSeries :=
  [ { datetime := 0, «open» := some 100, high := some 101, low := some 99,
      close := some (201/2), volume := 1000, dividends := 0, stock_splits := 0 },
    emptyBin5,
    { datetime := 10, «open» := some 100, high := some 101, low := some 99,
      close := some (201/2), volume := 1000, dividends := 0, stock_splits := 0 } ]

theorem foldlMin_le_init (l : List Bar) (a : Nat) :
    l.foldl (fun x c => min x c.datetime) a ≤ a := by
  induction l generalizing a with
  | nil => simp
  | cons b t ih =>
    simpa using le_trans (ih (min a b.datetime)) (min_le_left _ _)

theorem foldlMin_le_mem (l : List Bar) (a : Nat) (c : Bar) (hc : c ∈ l) :
    l.foldl (fun x c => min x c.datetime) a ≤ c.datetime := by
  induction l generalizing a with
  | nil => cases hc
  | cons b t ih =>
    rcases List.mem_cons.1 hc with rfl | hmem
    · simpa using le_trans (foldlMin_le_init t _) (min_le_right _ _)
    · simpa using ih (min a b.datetime) hmem

theorem foldlMax_init_le (l : List Bar) (a : Nat) :
    a ≤ l.foldl (fun x c => max x c.datetime) a := by
  induction l generalizing a with
  | nil => simp
  | cons b t ih =>
    simpa using le_trans (le_max_left a b.datetime) (ih (max a b.datetime))

theorem foldlMax_mem_le (l : List Bar) (a : Nat) (c : Bar) (hc : c ∈ l) :
    c.datetime ≤ l.foldl (fun x c => max x c.datetime) a := by
  induction l generalizing a with
  | nil => cases hc
  | cons b t ih =>
    rcases List.mem_cons.1 hc with rfl | hmem
    · simpa using le_trans (le_max_right a c.datetime) (foldlMax_init_le t _)
    · simpa using ih (max a b.datetime) hmem

theorem minTs_le (data : BarSeries) (t : Nat) (h : minTs data = some t) :
    ∀ bar ∈ data, t ≤ bar.datetime := by
  intro bar hbar
  cases data with
  | nil => cases h
  | cons b l =>
    cases h
    rcases List.mem_cons.1 hbar with rfl | hmem
    · exact foldlMin_le_init l bar.datetime
    · exact foldlMin_le_mem l b.datetime bar hmem

theorem maxTs_ge (data : BarSeries) (t : Nat) (h : maxTs data = some t) :
    ∀ bar ∈ data, bar.datetime ≤ t := by
  intro bar hbar
  cases data with
  | nil => cases h
  | cons b l =>
    cases h
    rcases List.mem_cons.1 hbar with rfl | hmem
    · exact foldlMax_init_le l bar.datetime
    · exact foldlMax_mem_le l b.datetime bar hmem

theorem minTs_none_iff (data : BarSeries) : minTs data = none ↔ data = [] := by
  cases data <;> simp [minTs]

theorem maxTs_some_of_minTs (data : BarSeries) (t : Nat) (h : minTs data = some t) :
    ∃ t2, maxTs data = some t2 := by
  cases data with
  | nil => cases h
  | cons b l => exact ⟨_, rfl⟩

theorem seriesOrigin_le (tmin : Nat) : seriesOrigin tmin ≤ tmin :=
  Nat.div_mul_le_self tmin 1440

theorem bucketStart_le (o m ts : Nat) (ho : o ≤ ts) : bucketStart o m ts ≤ ts := by
  have h := Nat.div_mul_le_self (ts - o) m
  unfold bucketStart
  omega

theorem lt_bucketStart_add (o m ts : Nat) (hm : 0 < m) (ho : o ≤ ts) :
    ts < bucketStart o m ts + m := by
  have h1 := Nat.div_add_mod (ts - o) m
  have h2 := Nat.mod_lt (ts - o) hm
  rw [Nat.mul_comm] at h1
  unfold bucketStart
  omega

theorem bucketStart_mono (o m ts1 ts2 : Nat) (h12 : ts1 ≤ ts2) :
    bucketStart o m ts1 ≤ bucketStart o m ts2 := by
  have h : (ts1 - o) / m ≤ (ts2 - o) / m :=
    Nat.div_le_div_right (Nat.sub_le_sub_right h12 o)
  unfold bucketStart
  exact Nat.add_le_add_left (Nat.mul_le_mul_right m h) o

theorem bucketStart_aligned (o m q : Nat) (hm : 0 < m) :
    bucketStart o m (o + q * m) = o + q * m := by
  unfold bucketStart
  rw [Nat.add_sub_cancel_left, Nat.mul_div_cancel q hm]

theorem bucketStart_shape (o m ts : Nat) :
    ∃ q, bucketStart o m ts = o + q * m := ⟨(ts - o) / m, rfl⟩

theorem resample_eq (data : BarSeries) (i : String) (m : Nat)
    (hm : freqMinutes (Resampler.format_interval i) = some m) :
    Resampler.resample data i = some (resampleMinutes m data) := by
  unfold Resampler.resample
  rw [hm]

theorem resampleMinutes_eq (m : Nat) (data : BarSeries) (tmin tmax : Nat)
    (hmin : minTs data = some tmin) (hmax : maxTs data = some tmax) :
    resampleMinutes m data =
      (List.range' (bucketStart (seriesOrigin tmin) m tmin)
        ((bucketStart (seriesOrigin tmin) m tmax -
          bucketStart (seriesOrigin tmin) m tmin) / m + 1) m).map
        (fun b => aggBucket m (seriesOrigin tmin) data b) := by
  unfold resampleMinutes
  rw [hmin, hmax]

theorem minTs_le_maxTs (data : BarSeries) (tmin tmax : Nat)
    (hmin : minTs data = some tmin) (hmax : maxTs data = some tmax) :
    tmin ≤ tmax := by
  cases data with
  | nil => cases hmin
  | cons b l =>
    have h1 := minTs_le _ _ hmin b (List.mem_cons_self b l)
    have h2 := maxTs_ge _ _ hmax b (List.mem_cons_self b l)
    omega

theorem resampleMinutes_spec (m : Nat) (hm : 0 < m) (data : BarSeries)
    (tmin tmax : Nat)
    (hmin : minTs data = some tmin) (hmax : maxTs data = some tmax) :
    ∃ q1 q2 : Nat, q1 ≤ q2 ∧
      q1 = (tmin - seriesOrigin tmin) / m ∧
      q2 = (tmax - seriesOrigin tmin) / m ∧
      resampleMinutes m data =
        (List.range' (seriesOrigin tmin + q1 * m) (q2 - q1 + 1) m).map
          (fun b => aggBucket m (seriesOrigin tmin) data b) := by
  set o := seriesOrigin tmin
  refine ⟨(tmin - o) / m, (tmax - o) / m, ?_, rfl, rfl, ?_⟩
  · exact Nat.div_le_div_right
      (Nat.sub_le_sub_right (minTs_le_maxTs data tmin tmax hmin hmax) o)
  · rw [resampleMinutes_eq m data tmin tmax hmin hmax]
    have hdiv : ((tmax - o) / m - (tmin - o) / m) * m / m =
        (tmax - o) / m - (tmin - o) / m := Nat.mul_div_cancel _ hm
    have hsub : ((tmax - o) / m - (tmin - o) / m) * m =
        (tmax - o) / m * m - (tmin - o) / m * m := Nat.sub_mul _ _ m
    have hb : bucketStart o m tmax - bucketStart o m tmin =
        ((tmax - o) / m - (tmin - o) / m) * m := by
      unfold bucketStart
      omega
    rw [hb, hdiv]
    rfl

theorem bucketStart_mem (o m ts tmin tmax : Nat)
    (h1 : tmin ≤ ts) (h2 : ts ≤ tmax) :
    ∃ q : Nat, bucketStart o m ts = o + q * m ∧
      (tmin - o) / m ≤ q ∧ q ≤ (tmax - o) / m := by
  refine ⟨(ts - o) / m, rfl, ?_, ?_⟩
  · exact Nat.div_le_div_right (Nat.sub_le_sub_right h1 o)
  · exact Nat.div_le_div_right (Nat.sub_le_sub_right h2 o)

theorem aggBucket_datetime (m o : Nat) (data : BarSeries) (b : Nat) :
    (aggBucket m o data b).datetime = b := rfl

theorem filterMap_id_map (f : Bar → Option ℚ) (l : List Bar) :
    (l.map f).filterMap id = l.filterMap f := by
  induction l with
  | nil => rfl
  | cons b t ih => cases hb : f b <;> simp [List.filterMap_cons, hb, ih]

theorem filterMap_head (f : Bar → Option ℚ) (hd : Bar) (t : List Bar)
    (hs : (f hd).isSome = true) :
    ((hd :: t).filterMap f).head? = f hd := by
  cases hfb : f hd with
  | none => rw [hfb] at hs; cases hs
  | some v => simp [List.filterMap_cons, hfb]

theorem filterMap_getLast (f : Bar → Option ℚ) (l : List Bar) (b : Bar)
    (hb : l.getLast? = some b) (hs : (f b).isSome = true) :
    (l.filterMap f).getLast? = f b := by
  induction l with
  | nil => cases hb
  | cons x t ih =>
    cases t with
    | nil =>
      have hxb : x = b := by simpa using hb
      subst hxb
      cases hfb : f x with
      | none => rw [hfb] at hs; cases hs
      | some v => simp [List.filterMap_cons, hfb]
    | cons y u =>
      rw [List.getLast?_cons_cons] at hb
      have htail := ih hb
      have hne : (y :: u).filterMap f ≠ [] := by
        intro hemp
        rw [hemp] at htail
        rw [← htail] at hs
        cases hs
      cases hfx : f x with
      | none => simpa [List.filterMap_cons, hfx] using htail
      | some v =>
        rcases hrest : (y :: u).filterMap f with _ | ⟨r, rr⟩
        · exact absurd hrest hne
        · rw [hrest] at htail
          simp [List.filterMap_cons, hfx, hrest, htail]

theorem foldl_maxStep_some (l : List ℚ) (q0 : ℚ) :
    ∃ q, l.foldl maxStep (some q0) = some q ∧ (q = q0 ∨ q ∈ l) ∧ q0 ≤ q ∧
      ∀ x ∈ l, x ≤ q := by
  induction l generalizing q0 with
  | nil => exact ⟨q0, rfl, Or.inl rfl, le_refl _, by simp⟩
  | cons x t ih =>
    obtain ⟨q, h1, h2, h3, h4⟩ := ih (max q0 x)
    refine ⟨q, by simpa [maxStep] using h1, ?_, le_trans (le_max_left _ _) h3, ?_⟩
    · rcases h2 with rfl | hq
      · rcases le_total q0 x with hle | hle
        · rw [max_eq_right hle]; exact Or.inr (List.mem_cons_self x t)
        · exact Or.inl (max_eq_left hle)
      · exact Or.inr (List.mem_cons_of_mem _ hq)
    · intro y hy
      rcases List.mem_cons.1 hy with rfl | hmem
      · exact le_trans (le_max_right _ _) h3
      · exact h4 y hmem

theorem foldl_minStep_some (l : List ℚ) (q0 : ℚ) :
    ∃ q, l.foldl minStep (some q0) = some q ∧ (q = q0 ∨ q ∈ l) ∧ q ≤ q0 ∧
      ∀ x ∈ l, q ≤ x := by
  induction l generalizing q0 with
  | nil => exact ⟨q0, rfl, Or.inl rfl, le_refl _, by simp⟩
  | cons x t ih =>
    obtain ⟨q, h1, h2, h3, h4⟩ := ih (min q0 x)
    refine ⟨q, by simpa [minStep] using h1, ?_, le_trans h3 (min_le_left _ _), ?_⟩
    · rcases h2 with rfl | hq
      · rcases le_total q0 x with hle | hle
        · exact Or.inl (min_eq_left hle)
        · rw [min_eq_right hle]; exact Or.inr (List.mem_cons_self x t)
      · exact Or.inr (List.mem_cons_of_mem _ hq)
    · intro y hy
      rcases List.mem_cons.1 hy with rfl | hmem
      · exact le_trans h3 (min_le_right _ _)
      · exact h4 y hmem

theorem aggMax_spec (l : List ℚ) (hne : l ≠ []) :
    ∃ q, l.foldl maxStep none = some q ∧ q ∈ l ∧ ∀ x ∈ l, x ≤ q := by
  cases l with
  | nil => exact absurd rfl hne
  | cons x t =>
    obtain ⟨q, h1, h2, h3, h4⟩ := foldl_maxStep_some t x
    refine ⟨q, by simpa [maxStep] using h1, ?_, ?_⟩
    · rcases h2 with rfl | hq
      · exact List.mem_cons_self _ _
      · exact List.mem_cons_of_mem _ hq
    · intro y hy
      rcases List.mem_cons.1 hy with rfl | hmem
      · exact h3
      · exact h4 y hmem

theorem aggMin_spec (l : List ℚ) (hne : l ≠ []) :
    ∃ q, l.foldl minStep none = some q ∧ q ∈ l ∧ ∀ x ∈ l, q ≤ x := by
  cases l with
  | nil => exact absurd rfl hne
  | cons x t =>
    obtain ⟨q, h1, h2, h3, h4⟩ := foldl_minStep_some t x
    refine ⟨q, by simpa [minStep] using h1, ?_, ?_⟩
    · rcases h2 with rfl | hq
      · exact List.mem_cons_self _ _
      · exact List.mem_cons_of_mem _ hq
    · intro y hy
      rcases List.mem_cons.1 hy with rfl | hmem
      · exact h3
      · exact h4 y hmem

theorem pairwise_head_min (hd : Bar) (t : List Bar)
    (h : (hd :: t).Pairwise (fun a b => a.datetime < b.datetime)) :
    ∀ c ∈ hd :: t, hd.datetime ≤ c.datetime := by
  intro c hc
  rcases List.mem_cons.1 hc with rfl | hmem
  · exact le_refl _
  · exact le_of_lt ((List.pairwise_cons.1 h).1 c hmem)

theorem pairwise_getLast_max (l : List Bar) (b : Bar)
    (h : l.Pairwise (fun a b => a.datetime < b.datetime))
    (hb : l.getLast? = some b) :
    ∀ c ∈ l, c.datetime ≤ b.datetime := by
  induction l with
  | nil => cases hb
  | cons x t ih =>
    cases t with
    | nil =>
      cases hb
      intro c hc
      rcases List.mem_cons.1 hc with rfl | hmem
      · exact le_refl _
      · cases hmem
    | cons y u =>
      rw [List.getLast?_cons_cons] at hb
      have htail := ih (List.pairwise_cons.1 h).2 hb
      intro c hc
      rcases List.mem_cons.1 hc with rfl | hmem
      · have hbmem : b ∈ y :: u := List.mem_of_getLast?_eq_some hb
        exact le_of_lt ((List.pairwise_cons.1 h).1 b hbmem)
      · exact htail c hmem

theorem sum_map_add_q (bs : List Nat) (g h : Nat → ℚ) :
    (bs.map (fun b => g b + h b)).sum = (bs.map g).sum + (bs.map h).sum := by
  induction bs with
  | nil => simp
  | cons b t ih =>
    simp only [List.map_cons, List.sum_cons, ih]
    ring

theorem sum_indicator_not_mem (t : List Nat) (key : Nat) (v : ℚ)
    (h : key ∉ t) :
    (t.map (fun b => if key = b then v else 0)).sum = 0 := by
  induction t with
  | nil => simp
  | cons b u ih =>
    have hne : key ≠ b := fun he => h (he ▸ List.mem_cons_self b u)
    have hu : key ∉ u := fun hm => h (List.mem_cons_of_mem _ hm)
    simp [hne, ih hu]

theorem sum_indicator (bs : List Nat) (key : Nat) (v : ℚ)
    (hnd : bs.Nodup) (hmem : key ∈ bs) :
    (bs.map (fun b => if key = b then v else 0)).sum = v := by
  induction bs with
  | nil => cases hmem
  | cons b t ih =>
    rcases List.mem_cons.1 hmem with rfl | hmem2
    · have hout : key ∉ t := (List.nodup_cons.1 hnd).1
      simp [sum_indicator_not_mem t key v hout]
    · have hne : key ≠ b := by
        intro he
        exact (List.nodup_cons.1 hnd).1 (he ▸ hmem2)
      simp [hne, ih (List.nodup_cons.1 hnd).2 hmem2]

theorem sum_over_buckets (bs : List Nat) (l : List Bar) (key : Bar → Nat)
    (f : Bar → ℚ) (hnd : bs.Nodup) (hc : ∀ x ∈ l, key x ∈ bs) :
    (bs.map (fun b => ((l.filter (fun x => key x == b)).map f).sum)).sum =
      (l.map f).sum := by
  induction l with
  | nil => simp
  | cons x t ih =>
    have hxt : ∀ y ∈ t, key y ∈ bs := fun y hy => hc y (List.mem_cons_of_mem _ hy)
    have hx : key x ∈ bs := hc x (List.mem_cons_self _ _)
    have hsplit : ∀ b : Nat,
        (((x :: t).filter (fun y => key y == b)).map f).sum =
          (if key x = b then f x else 0) +
            ((t.filter (fun y => key y == b)).map f).sum := by
      intro b
      by_cases hb : key x = b
      · simp [List.filter_cons, hb]
      · simp [List.filter_cons, hb]
    calc (bs.map (fun b => (((x :: t).filter (fun y => key y == b)).map f).sum)).sum
        = (bs.map (fun b => (if key x = b then f x else 0) +
            ((t.filter (fun y => key y == b)).map f).sum)).sum := by
          simp only [hsplit]
      _ = (bs.map (fun b => if key x = b then f x else 0)).sum +
            (bs.map (fun b => ((t.filter (fun y => key y == b)).map f).sum)).sum :=
          sum_map_add_q bs _ _
      _ = f x + (t.map f).sum := by
          rw [sum_indicator bs (key x) (f x) hnd hx, ih hxt]
      _ = ((x :: t).map f).sum := by simp

theorem mem_range'_of_q (o m q1 q2 q : Nat) (h1 : q1 ≤ q) (h2 : q ≤ q2) :
    o + q * m ∈ List.range' (o + q1 * m) (q2 - q1 + 1) m := by
  rw [List.mem_range']
  refine ⟨q - q1, by omega, ?_⟩
  have hsub : (q - q1) * m = q * m - q1 * m := Nat.sub_mul _ _ _
  have hle : q1 * m ≤ q * m := Nat.mul_le_mul_right m h1
  rw [Nat.mul_comm m (q - q1), hsub]
  omega

theorem bar_bucket_q (m : Nat) (data : BarSeries) (tmin tmax : Nat)
    (hmin : minTs data = some tmin) (hmax : maxTs data = some tmax)
    (bar : Bar) (hbar : bar ∈ data) :
    (tmin - seriesOrigin tmin) / m ≤ (bar.datetime - seriesOrigin tmin) / m ∧
    (bar.datetime - seriesOrigin tmin) / m ≤ (tmax - seriesOrigin tmin) / m :=
  ⟨Nat.div_le_div_right (Nat.sub_le_sub_right (minTs_le data tmin hmin bar hbar) _),
   Nat.div_le_div_right (Nat.sub_le_sub_right (maxTs_ge data tmax hmax bar hbar) _)⟩

/-- C4: resampling conserves total volume: summing the `volume` column over
the output of `Resampler.resample` equals summing it over the input. -/
theorem resample_conserves_volume (data : BarSeries) (i : String) (m : Nat)
    (hm : freqMinutes (Resampler.format_interval i) = some m) (hmpos : 0 < m)
    (out : BarSeries) (hout : Resampler.resample data i = some out) :
    (out.map (·.volume)).sum = (data.map (·.volume)).sum := by
  rw [resample_eq data i m hm] at hout
  injection hout with hout
  subst hout
  cases hmin : minTs data with
  | none =>
    have hdata : data = [] := (minTs_none_iff data).1 hmin
    subst hdata
    simp [resampleMinutes, minTs, maxTs]
  | some tmin =>
    obtain ⟨tmax, hmax⟩ := maxTs_some_of_minTs data tmin hmin
    obtain ⟨q1, q2, h12, hq1, hq2, hre⟩ :=
      resampleMinutes_spec m hmpos data tmin tmax hmin hmax
    rw [hre, List.map_map]
    have hfun : ((fun bar : Bar => bar.volume) ∘
        fun b => aggBucket m (seriesOrigin tmin) data b) =
        fun b => ((data.filter
          (fun x => bucketStart (seriesOrigin tmin) m x.datetime == b)).map
          (fun bar : Bar => bar.volume)).sum := rfl
    rw [hfun]
    refine sum_over_buckets _ data
      (fun bar => bucketStart (seriesOrigin tmin) m bar.datetime)
      (fun bar : Bar => bar.volume)
      (List.nodup_range' _ _ m hmpos) ?_
    intro bar hbar
    obtain ⟨hle1, hle2⟩ := bar_bucket_q m data tmin tmax hmin hmax bar hbar
    subst hq1
    subst hq2
    exact mem_range'_of_q (seriesOrigin tmin) m _ _ _ hle1 hle2

theorem out_getElem?_eq (s n m k : Nat) (g : Nat → Bar) (hk : k < n) :
    ((List.range' s n m).map g)[k]? = some (g (s + m * k)) := by
  rw [List.getElem?_map, List.getElem?_range' s m hk]
  rfl

theorem out_getElem?_inv (s n m k' : Nat) (g : Nat → Bar) (ob : Bar)
    (h : ((List.range' s n m).map g)[k']? = some ob) :
    k' < n ∧ ob = g (s + m * k') := by
  rw [List.getElem?_map] at h
  cases hr : (List.range' s n m)[k']? with
  | none => rw [hr] at h; cases h
  | some b' =>
    rw [hr] at h
    have hk : k' < n := by
      obtain ⟨hlt, _⟩ := List.getElem?_eq_some_iff.1 hr
      simpa using hlt
    have hb' : b' = s + m * k' := by
      have h2 := List.getElem?_range' s m hk
      exact Option.some.inj (hr.symm.trans h2)
    injection h with h
    exact ⟨hk, by rw [← h, hb']⟩

theorem mul_shift_eq (o m a b : Nat) (hab : a ≤ b) :
    o + a * m + m * (b - a) = o + b * m := by
  have hsub : (b - a) * m = b * m - a * m := Nat.sub_mul _ _ m
  have hle : a * m ≤ b * m := Nat.mul_le_mul_right m hab
  rw [Nat.mul_comm m (b - a), hsub]
  omega

/-- C5: every input bar contributes to exactly one output bucket of
`Resampler.resample`: there is a unique output index whose row's bin
contains the bar. -/
theorem resample_partition (data : BarSeries) (i : String) (m : Nat)
    (hm : freqMinutes (Resampler.format_interval i) = some m) (hmpos : 0 < m)
    (tmin : Nat) (hmin : minTs data = some tmin)
    (out : BarSeries) (hout : Resampler.resample data i = some out) :
    ∀ bar ∈ data, ∃! k : Nat, ∃ ob : Bar, out[k]? = some ob ∧
      bar ∈ bucketBars m (seriesOrigin tmin) data ob.datetime := by
  intro bar hbar
  rw [resample_eq data i m hm] at hout
  injection hout with hout
  subst hout
  obtain ⟨tmax, hmax⟩ := maxTs_some_of_minTs data tmin hmin
  obtain ⟨q1, q2, h12, hq1, hq2, hre⟩ :=
    resampleMinutes_spec m hmpos data tmin tmax hmin hmax
  rw [hre]
  obtain ⟨hle1, hle2⟩ := bar_bucket_q m data tmin tmax hmin hmax bar hbar
  subst hq1
  subst hq2
  refine ⟨(bar.datetime - seriesOrigin tmin) / m -
      (tmin - seriesOrigin tmin) / m,
    ⟨aggBucket m (seriesOrigin tmin) data
        (seriesOrigin tmin + (tmin - seriesOrigin tmin) / m * m +
          m * ((bar.datetime - seriesOrigin tmin) / m -
            (tmin - seriesOrigin tmin) / m)),
      ?_, ?_⟩, ?_⟩
  · exact out_getElem?_eq _ _ m _ _ (by omega)
  · rw [aggBucket_datetime,
      mul_shift_eq (seriesOrigin tmin) m _ _ hle1]
    refine List.mem_filter.2 ⟨hbar, ?_⟩
    simp [bucketStart]
  · intro k' hk'
    obtain ⟨ob', hk'eq, hmem'⟩ := hk'
    obtain ⟨hk'lt, hob'⟩ := out_getElem?_inv _ _ m _ _ _ hk'eq
    have hdt : bucketStart (seriesOrigin tmin) m bar.datetime = ob'.datetime := by
      have := (List.mem_filter.1 hmem').2
      exact beq_iff_eq.1 this
    rw [hob', aggBucket_datetime] at hdt
    have hB : bucketStart (seriesOrigin tmin) m bar.datetime =
        seriesOrigin tmin + (bar.datetime - seriesOrigin tmin) / m * m := rfl
    have hmul : m * k' = m * ((bar.datetime - seriesOrigin tmin) / m -
        (tmin - seriesOrigin tmin) / m) := by
      have h2 := mul_shift_eq (seriesOrigin tmin) m
        ((tmin - seriesOrigin tmin) / m)
        ((bar.datetime - seriesOrigin tmin) / m) hle1
      omega
    exact Nat.eq_of_mul_eq_mul_left hmpos hmul

/-- C2 (amended): the output rows of `Resampler.resample` are exactly the
bin-aligned times from the earliest input bar's bin to the latest input
bar's bin — including bins with no contributing bar, which appear with all
four price columns missing and zero sums; only bins outside the input's
timestamp range are omitted. -/
theorem resample_bucket_range (data : BarSeries) (i : String) (m : Nat)
    (hm : freqMinutes (Resampler.format_interval i) = some m) (hmpos : 0 < m)
    (tmin tmax : Nat) (hmin : minTs data = some tmin)
    (hmax : maxTs data = some tmax)
    (out : BarSeries) (hout : Resampler.resample data i = some out) :
    (∀ b : Nat,
      (∃ k : Nat, ∃ ob : Bar, out[k]? = some ob ∧ ob.datetime = b) ↔
        (bucketStart (seriesOrigin tmin) m tmin ≤ b ∧
         b ≤ bucketStart (seriesOrigin tmin) m tmax ∧
         bucketStart (seriesOrigin tmin) m b = b)) ∧
    (∀ (k : Nat) (ob : Bar), out[k]? = some ob →
      bucketBars m (seriesOrigin tmin) data ob.datetime = [] →
      ob.«open» = none ∧ ob.high = none ∧ ob.low = none ∧ ob.close = none ∧
        ob.volume = 0 ∧ ob.dividends = 0 ∧ ob.stock_splits = 0) := by
  rw [resample_eq data i m hm] at hout
  injection hout with hout
  subst hout
  obtain ⟨q1, q2, h12, hq1, hq2, hre⟩ :=
    resampleMinutes_spec m hmpos data tmin tmax hmin hmax
  rw [hre]
  subst hq1
  subst hq2
  have e0 : bucketStart (seriesOrigin tmin) m tmin =
      seriesOrigin tmin + (tmin - seriesOrigin tmin) / m * m := rfl
  have e1 : bucketStart (seriesOrigin tmin) m tmax =
      seriesOrigin tmin + (tmax - seriesOrigin tmin) / m * m := rfl
  constructor
  · intro b
    constructor
    · rintro ⟨k, ob, hk, hdt⟩
      obtain ⟨hklt, hob⟩ := out_getElem?_inv _ _ m _ _ _ hk
      have hb : b = seriesOrigin tmin +
          (tmin - seriesOrigin tmin) / m * m + m * k := by
        rw [← hdt, hob, aggBucket_datetime]
      subst hb
      refine ⟨by rw [e0]; omega, ?_, ?_⟩
      · rw [e1]
        have hkle : k ≤ (tmax - seriesOrigin tmin) / m -
            (tmin - seriesOrigin tmin) / m := by omega
        have hmk : m * k ≤ m * ((tmax - seriesOrigin tmin) / m -
            (tmin - seriesOrigin tmin) / m) := Nat.mul_le_mul_left m hkle
        have hms := mul_shift_eq (seriesOrigin tmin) m
          ((tmin - seriesOrigin tmin) / m) ((tmax - seriesOrigin tmin) / m) h12
        omega
      · have hadd : seriesOrigin tmin + (tmin - seriesOrigin tmin) / m * m +
            m * k = seriesOrigin tmin +
              ((tmin - seriesOrigin tmin) / m + k) * m := by
          have := Nat.add_mul ((tmin - seriesOrigin tmin) / m) k m
          have := Nat.mul_comm m k
          omega
        rw [hadd]
        exact bucketStart_aligned _ m _ hmpos
    · rintro ⟨hge, hle, hal⟩
      have hqb : b = seriesOrigin tmin + (b - seriesOrigin tmin) / m * m :=
        hal.symm
      have hgeq : (tmin - seriesOrigin tmin) / m ≤ (b - seriesOrigin tmin) / m := by
        rw [e0] at hge
        have : (tmin - seriesOrigin tmin) / m * m ≤
            (b - seriesOrigin tmin) / m * m := by omega
        exact Nat.le_of_mul_le_mul_right this hmpos
      have hleq : (b - seriesOrigin tmin) / m ≤ (tmax - seriesOrigin tmin) / m := by
        rw [e1] at hle
        have : (b - seriesOrigin tmin) / m * m ≤
            (tmax - seriesOrigin tmin) / m * m := by omega
        exact Nat.le_of_mul_le_mul_right this hmpos
      refine ⟨(b - seriesOrigin tmin) / m - (tmin - seriesOrigin tmin) / m,
        aggBucket m (seriesOrigin tmin) data
          (seriesOrigin tmin + (tmin - seriesOrigin tmin) / m * m +
            m * ((b - seriesOrigin tmin) / m - (tmin - seriesOrigin tmin) / m)),
        out_getElem?_eq _ _ m _ _ (by omega), ?_⟩
      rw [aggBucket_datetime,
        mul_shift_eq (seriesOrigin tmin) m _ _ hgeq]
      omega
  · intro k ob hk hempty
    obtain ⟨hklt, hob⟩ := out_getElem?_inv _ _ m _ _ _ hk
    subst hob
    rw [aggBucket_datetime] at hempty
    simp [aggBucket, hempty, aggFirst, aggLast, aggMax, aggMin]

/-- C1: in each output bucket of `Resampler.resample` that contains input
bars, `open` comes from the chronologically first bar of the bucket, `close`
from the chronologically last, `high` is the maximum, `low` the minimum, and
`volume`, `dividends`, `stock_splits` are the sums over the bucket. -/
theorem resample_bucket_aggregation (data : BarSeries) (i : String) (m : Nat)
    (hm : freqMinutes (Resampler.format_interval i) = some m) (hmpos : 0 < m)
    (hsort : data.Pairwise (fun a b => a.datetime < b.datetime))
    (hsome : ∀ bar ∈ data, bar.«open».isSome = true ∧ bar.high.isSome = true ∧
      bar.low.isSome = true ∧ bar.close.isSome = true)
    (tmin : Nat) (hmin : minTs data = some tmin)
    (out : BarSeries) (hout : Resampler.resample data i = some out)
    (k : Nat) (ob : Bar) (hk : out[k]? = some ob)
    (bs : BarSeries) (hbs : bs = bucketBars m (seriesOrigin tmin) data ob.datetime)
    (hne : bs ≠ []) :
    (∃ first, first ∈ bs ∧ (∀ c ∈ bs, first.datetime ≤ c.datetime) ∧
      ob.«open» = first.«open») ∧
    (∃ last, last ∈ bs ∧ (∀ c ∈ bs, c.datetime ≤ last.datetime) ∧
      ob.close = last.close) ∧
    (∃ q, ob.high = some q ∧ (∃ c ∈ bs, c.high = some q) ∧
      ∀ c ∈ bs, ∀ x, c.high = some x → x ≤ q) ∧
    (∃ q, ob.low = some q ∧ (∃ c ∈ bs, c.low = some q) ∧
      ∀ c ∈ bs, ∀ x, c.low = some x → q ≤ x) ∧
    ob.volume = (bs.map (·.volume)).sum ∧
    ob.dividends = (bs.map (·.dividends)).sum ∧
    ob.stock_splits = (bs.map (·.stock_splits)).sum := by
  rw [resample_eq data i m hm] at hout
  injection hout with hout
  subst hout
  obtain ⟨tmax, hmax⟩ := maxTs_some_of_minTs data tmin hmin
  obtain ⟨q1, q2, h12, hq1, hq2, hre⟩ :=
    resampleMinutes_spec m hmpos data tmin tmax hmin hmax
  rw [hre] at hk
  obtain ⟨hklt, hob⟩ := out_getElem?_inv _ _ m _ _ _ hk
  subst hob
  rw [aggBucket_datetime] at hbs
  subst hbs
  have hsub : bucketBars m (seriesOrigin tmin) data
      (seriesOrigin tmin + q1 * m + m * k) ⊆ data := fun c hc =>
    (List.mem_filter.1 hc).1
  have hsorted : (bucketBars m (seriesOrigin tmin) data
      (seriesOrigin tmin + q1 * m + m * k)).Pairwise
      (fun a b => a.datetime < b.datetime) :=
    List.Pairwise.sublist (List.filter_sublist data) hsort
  rcases hbb : bucketBars m (seriesOrigin tmin) data
      (seriesOrigin tmin + q1 * m + m * k) with _ | ⟨hd, tl⟩
  · exact absurd hbb hne
  · rw [hbb] at hsub hsorted
    have hhd := hsome hd (hsub (List.mem_cons_self hd tl))
    refine ⟨⟨hd, List.mem_cons_self hd tl, pairwise_head_min hd tl hsorted, ?_⟩,
      ?_, ?_, ?_, ?_, ?_, ?_⟩
    · show aggFirst ((bucketBars m (seriesOrigin tmin) data
        (seriesOrigin tmin + q1 * m + m * k)).map (·.«open»)) = hd.«open»
      rw [hbb]
      unfold aggFirst
      rw [filterMap_id_map]
      exact filterMap_head _ hd tl hhd.1
    · have hgl := List.getLast?_eq_getLast (hd :: tl) (by simp)
      set last := (hd :: tl).getLast (by simp) with hlast
      have hlmem : last ∈ hd :: tl := List.getLast_mem _
      have hlsome := hsome last (hsub hlmem)
      refine ⟨last, hlmem, pairwise_getLast_max _ last hsorted hgl, ?_⟩
      show aggLast ((bucketBars m (seriesOrigin tmin) data
        (seriesOrigin tmin + q1 * m + m * k)).map (·.close)) = last.close
      rw [hbb]
      unfold aggLast
      rw [filterMap_id_map]
      exact filterMap_getLast _ _ last hgl hlsome.2.2.2
    · have hLne : (hd :: tl).filterMap (·.high) ≠ [] := by
        intro hemp
        obtain ⟨v, hv⟩ := Option.isSome_iff_exists.1 hhd.2.1
        have : v ∈ (hd :: tl).filterMap (·.high) :=
          List.mem_filterMap.2 ⟨hd, List.mem_cons_self hd tl, hv⟩
        rw [hemp] at this
        cases this
      obtain ⟨q, hq, hqmem, hqbd⟩ := aggMax_spec _ hLne
      refine ⟨q, ?_, ?_, ?_⟩
      · show aggMax ((bucketBars m (seriesOrigin tmin) data
          (seriesOrigin tmin + q1 * m + m * k)).map (·.high)) = some q
        rw [hbb]
        unfold aggMax
        rw [filterMap_id_map]
        exact hq
      · obtain ⟨c, hcmem, hcv⟩ := List.mem_filterMap.1 hqmem
        exact ⟨c, hcmem, hcv⟩
      · intro c hc x hx
        exact hqbd x (List.mem_filterMap.2 ⟨c, hc, hx⟩)
    · have hLne : (hd :: tl).filterMap (·.low) ≠ [] := by
        intro hemp
        obtain ⟨v, hv⟩ := Option.isSome_iff_exists.1 hhd.2.2.1
        have : v ∈ (hd :: tl).filterMap (·.low) :=
          List.mem_filterMap.2 ⟨hd, List.mem_cons_self hd tl, hv⟩
        rw [hemp] at this
        cases this
      obtain ⟨q, hq, hqmem, hqbd⟩ := aggMin_spec _ hLne
      refine ⟨q, ?_, ?_, ?_⟩
      · show aggMin ((bucketBars m (seriesOrigin tmin) data
          (seriesOrigin tmin + q1 * m + m * k)).map (·.low)) = some q
        rw [hbb]
        unfold aggMin
        rw [filterMap_id_map]
        exact hq
      · obtain ⟨c, hcmem, hcv⟩ := List.mem_filterMap.1 hqmem
        exact ⟨c, hcmem, hcv⟩
      · intro c hc x hx
        exact hqbd x (List.mem_filterMap.2 ⟨c, hc, hx⟩)
    · show ((bucketBars m (seriesOrigin tmin) data
        (seriesOrigin tmin + q1 * m + m * k)).map (·.volume)).sum =
          ((hd :: tl).map (·.volume)).sum
      rw [hbb]
    · show ((bucketBars m (seriesOrigin tmin) data
        (seriesOrigin tmin + q1 * m + m * k)).map (·.dividends)).sum =
          ((hd :: tl).map (·.dividends)).sum
      rw [hbb]
    · show ((bucketBars m (seriesOrigin tmin) data
        (seriesOrigin tmin + q1 * m + m * k)).map (·.stock_splits)).sum =
          ((hd :: tl).map (·.stock_splits)).sum
      rw [hbb]

/-- C3: `Collector.collect` uploads the intervals 1M, 5M, 1H, 1D by chained
resampling: the base series is uploaded unresampled, and every other stage
resamples the immediately preceding stage's output (the `data` variable is
reassigned each iteration), not the original base series. -/
theorem collect_chained (base r5 r1h r1d : BarSeries)
    (h5 : Resampler.resample base "5M" = some r5)
    (hh : Resampler.resample r5 "1H" = some r1h)
    (hd : Resampler.resample r1h "1D" = some r1d) :
    Collector.collectUploads base =
      some [("1M", base), ("5M", r5), ("1H", r1h), ("1D", r1d)] := by
  have e1 : (("1M" : String) == Collector.collect_interval) = true := rfl
  have e2 : (("5M" : String) == Collector.collect_interval) = false := rfl
  have e3 : (("1H" : String) == Collector.collect_interval) = false := rfl
  have e4 : (("1D" : String) == Collector.collect_interval) = false := rfl
  unfold Collector.collectUploads Collector.intervals
  simp [collectLoop, e1, e2, e3, e4, h5, hh, hd]

/-- C7: `Resampler.resample` is deterministic: equal input series and equal
interval strings give equal outputs (the embedding is a pure function of its
two arguments; it reads no other state). -/
theorem resample_deterministic (d1 d2 : BarSeries) (i1 i2 : String)
    (hd : d1 = d2) (hi : i1 = i2) :
    Resampler.resample d1 i1 = Resampler.resample d2 i2 := by
  rw [hd, hi]

/-- C8: resampling an empty series at any supported interval succeeds and
yields the empty series. -/
theorem resample_empty (i : String) (hi : i ∈ Collector.intervals) :
    Resampler.resample [] i = some [] := by
  fin_cases hi <;> rfl

/-- C9: `Collector.save_ticker_data` builds exactly the path
`{path}/{ticker}/{interval}/{YYYYMMDD}.csv`, the date being zero-padded
`%Y%m%d`, and the serialized tables carry exactly the columns
`datetime, open, high, low, close, volume, dividends, stock_splits` in that
order — both the fetched base table and the resampled tables, whose column
order is `datetime` followed by the `agg_dict` keys. -/
theorem save_layout :
    (∀ (p t i : String) (y mo d : Nat),
      Collector.save_path p t i y mo d =
        p ++ "/" ++ t ++ "/" ++ i ++ "/" ++ strftimeYYYYMMDD y mo d ++ ".csv") ∧
    strftimeYYYYMMDD 2024 1 2 = "20240102" ∧
    YFinanceCollector.columns =
      ["datetime", "open", "high", "low", "close", "volume", "dividends",
       "stock_splits"] ∧
    resampledColumns = YFinanceCollector.columns := by
  refine ⟨?_, by decide, rfl, rfl⟩
  intro p t i y mo d
  simp [Collector.save_path, Collector.filename_format, String.append_assoc]

theorem digit_ne_M (d : Char) (hd : isPyDigit d = true) : d ≠ 'M' := by
  intro he
  rw [he] at hd
  exact absurd hd (by decide)

theorem matchesDigitM_iff (s : String) :
    matchesDigitM s = true ↔ ∃ d : Char, isPyDigit d = true ∧
      (s.data = [d, 'M'] ∨ s.data = [d, 'M', '\n']) := by
  obtain ⟨l⟩ := s
  rcases l with _ | ⟨a, _ | ⟨b, _ | ⟨c, _ | ⟨e, rest⟩⟩⟩⟩ <;>
    simp [matchesDigitM]
  · constructor
    · rintro ⟨h1, rfl⟩
      exact ⟨a, h1, rfl, rfl⟩
    · rintro ⟨d, hd, rfl, rfl⟩
      exact ⟨hd, rfl⟩
  · constructor
    · rintro ⟨⟨h1, rfl⟩, rfl⟩
      exact ⟨a, h1, rfl, rfl, rfl⟩
    · rintro ⟨d, hd, rfl, rfl, rfl⟩
      exact ⟨⟨hd, rfl⟩, rfl⟩

/-- C10 counterexample: `format_interval` also rewrites a string made of one
digit, 'M' and a trailing newline — Python's `$` matches just before a final
newline — so "every other string is returned unchanged" fails at the input
"1M\n". -/
theorem format_interval_newline_cex :
    Resampler.format_interval (String.mk ['1', 'M', '\n']) =
      String.mk ['1', 'T', '\n'] ∧
    String.mk ['1', 'M', '\n'] ≠ String.mk ['1', 'M'] ∧
    Resampler.format_interval (String.mk ['1', 'M', '\n']) ≠
      String.mk ['1', 'M', '\n'] :=
  ⟨rfl, by decide, by decide⟩

/-- C10 (amended): `format_interval` rewrites its argument (replacing every
'M' by 'T') exactly when the argument is one Unicode decimal digit followed
by 'M', optionally followed by one trailing newline; every other string —
including '1H', '1D' and the multi-digit shorthand '15M' — is returned
unchanged, and '15M' is not a minute-based frequency for the underlying
resampler. -/
theorem format_interval_characterization (s : String) :
    (Resampler.format_interval s ≠ s ↔
      ∃ d : Char, isPyDigit d = true ∧
        (s = String.mk [d, 'M'] ∨ s = String.mk [d, 'M', '\n'])) ∧
    (∀ d : Char, isPyDigit d = true →
      Resampler.format_interval (String.mk [d, 'M']) = String.mk [d, 'T'] ∧
      Resampler.format_interval (String.mk [d, 'M', '\n']) =
        String.mk [d, 'T', '\n']) ∧
    Resampler.format_interval (String.mk [Char.ofNat 0x663, 'M']) =
      String.mk [Char.ofNat 0x663, 'T'] ∧
    Resampler.format_interval "15M" = "15M" ∧
    Resampler.format_interval "1H" = "1H" ∧
    Resampler.format_interval "1D" = "1D" ∧
    freqMinutes "15M" = none := by
  have hfmt : ∀ d : Char, isPyDigit d = true →
      Resampler.format_interval (String.mk [d, 'M']) = String.mk [d, 'T'] ∧
      Resampler.format_interval (String.mk [d, 'M', '\n']) =
        String.mk [d, 'T', '\n'] := by
    intro d hd
    have hne := digit_ne_M d hd
    have hm1 : matchesDigitM (String.mk [d, 'M']) = true := by
      simp [matchesDigitM, hd]
    have hm2 : matchesDigitM (String.mk [d, 'M', '\n']) = true := by
      simp [matchesDigitM, hd]
    constructor
    · rw [Resampler.format_interval, if_pos hm1]
      simp [pyReplaceMT, hne]
    · rw [Resampler.format_interval, if_pos hm2]
      simp [pyReplaceMT, hne]
  refine ⟨?_, hfmt, (hfmt (Char.ofNat 0x663) (by decide)).1, rfl, rfl, rfl, rfl⟩
  constructor
  · intro hne
    by_cases hm : matchesDigitM s = true
    · obtain ⟨d, hd, hcase⟩ := (matchesDigitM_iff s).1 hm
      refine ⟨d, hd, ?_⟩
      obtain ⟨l⟩ := s
      rcases hcase with hc | hc <;> rw [show String.data ⟨l⟩ = l from rfl] at hc <;>
        subst hc
      · exact Or.inl rfl
      · exact Or.inr rfl
    · rw [Resampler.format_interval, if_neg hm] at hne
      exact absurd rfl hne
  · rintro ⟨d, hd, rfl | rfl⟩
    · rw [(hfmt d hd).1]
      intro heq
      have := congrArg String.data heq
      simp at this
    · rw [(hfmt d hd).2]
      intro heq
      have := congrArg String.data heq
      simp at this

theorem resample_oneBar : Resampler.resample oneBar "5M" = some [oneOut] := by
  have hfreq : freqMinutes (Resampler.format_interval "5M") = some 5 := rfl
  rw [resample_eq oneBar "5M" 5 hfreq]
  norm_num [resampleMinutes, minTs, maxTs, seriesOrigin, bucketStart, bucketBars,
    aggBucket, aggFirst, aggLast, aggMax, aggMin, maxStep, minStep, oneBar,
    oneOut, scnBar, List.range', List.filterMap_cons, List.filterMap_nil,
    Bar.mk.injEq]

theorem resample_gapBars : Resampler.resample gapBars "5M" = some gapOut := by
  have hfreq : freqMinutes (Resampler.format_interval "5M") = some 5 := rfl
  rw [resample_eq gapBars "5M" 5 hfreq]
  norm_num [resampleMinutes, minTs, maxTs, seriesOrigin, bucketStart, bucketBars,
    aggBucket, aggFirst, aggLast, aggMax, aggMin, maxStep, minStep, gapBars,
    gapOut, emptyBin5, scnBar, List.range', List.filterMap_cons,
    List.filterMap_nil, Bar.mk.injEq]

/-- C2 counterexample: two bars ten minutes apart resampled to 5 minutes
yield three output rows; the middle row's bin (minute 5) has zero
contributing input bars, so a bucket with no base bars does appear in the
output. -/
theorem resample_emits_empty_bucket_cex :
    Resampler.resample gapBars "5M" = some gapOut ∧
    gapOut.length = 3 ∧
    ∃ ob, gapOut[1]? = some ob ∧
      bucketBars 5 (seriesOrigin 0) gapBars ob.datetime = [] ∧
      minTs gapBars = some 0 :=
  ⟨resample_gapBars, rfl, emptyBin5, rfl, by decide, rfl⟩

/-- C6: sixty consecutive 1-minute bars from 2024-01-02T09:30 with
`open=100, high=101, low=99, close=100.5, volume=1000` resampled to 5
minutes give exactly twelve bars, the first having `open=100`,
`close=100.5`, `high=101`, `low=99`, `volume=5000`. -/
theorem resample_sixty_bars_scenario :
    (Resampler.resample sixtyBars "5M").map List.length = some 12 ∧
    ((Resampler.resample sixtyBars "5M").getD []).head?.map (·.«open») =
      some (some 100) ∧
    ((Resampler.resample sixtyBars "5M").getD []).head?.map (·.close) =
      some (some (201/2)) ∧
    ((Resampler.resample sixtyBars "5M").getD []).head?.map (·.high) =
      some (some 101) ∧
    ((Resampler.resample sixtyBars "5M").getD []).head?.map (·.low) =
      some (some 99) ∧
    ((Resampler.resample sixtyBars "5M").getD []).head?.map (·.volume) =
      some 5000 := by
  have hfreq : freqMinutes (Resampler.format_interval "5M") = some 5 := rfl
  have h : Resampler.resample sixtyBars "5M" =
      some (resampleMinutes 5 sixtyBars) := resample_eq sixtyBars "5M" 5 hfreq
  rw [h]
  norm_num [resampleMinutes, minTs, maxTs, seriesOrigin, bucketStart, bucketBars,
    aggBucket, aggFirst, aggLast, aggMax, aggMin, maxStep, minStep, sixtyBars,
    scnBar, List.range', List.filterMap_cons, List.filterMap_nil,
    Nat.min_def, Nat.max_def]

/-- Witness for the bucket-aggregation theorem at a concrete one-bar input
resampled to five minutes. -/
theorem resample_bucket_aggregation_witness :
    (∃ first, first ∈ bucketBars 5 (seriesOrigin 0) oneBar oneOut.datetime ∧
      (∀ c ∈ bucketBars 5 (seriesOrigin 0) oneBar oneOut.datetime,
        first.datetime ≤ c.datetime) ∧
      oneOut.«open» = first.«open») ∧
    (∃ last, last ∈ bucketBars 5 (seriesOrigin 0) oneBar oneOut.datetime ∧
      (∀ c ∈ bucketBars 5 (seriesOrigin 0) oneBar oneOut.datetime,
        c.datetime ≤ last.datetime) ∧
      oneOut.close = last.close) ∧
    (∃ q, oneOut.high = some q ∧
      (∃ c ∈ bucketBars 5 (seriesOrigin 0) oneBar oneOut.datetime,
        c.high = some q) ∧
      ∀ c ∈ bucketBars 5 (seriesOrigin 0) oneBar oneOut.datetime,
        ∀ x, c.high = some x → x ≤ q) ∧
    (∃ q, oneOut.low = some q ∧
      (∃ c ∈ bucketBars 5 (seriesOrigin 0) oneBar oneOut.datetime,
        c.low = some q) ∧
      ∀ c ∈ bucketBars 5 (seriesOrigin 0) oneBar oneOut.datetime,
        ∀ x, c.low = some x → q ≤ x) ∧
    oneOut.volume =
      ((bucketBars 5 (seriesOrigin 0) oneBar oneOut.datetime).map
        (·.volume)).sum ∧
    oneOut.dividends =
      ((bucketBars 5 (seriesOrigin 0) oneBar oneOut.datetime).map
        (·.dividends)).sum ∧
    oneOut.stock_splits =
      ((bucketBars 5 (seriesOrigin 0) oneBar oneOut.datetime).map
        (·.stock_splits)).sum :=
  resample_bucket_aggregation oneBar "5M" 5 rfl (by decide)
    (by simp [oneBar]) (by simp [oneBar, scnBar]) 0 rfl
    [oneOut] resample_oneBar 0 oneOut rfl
    (bucketBars 5 (seriesOrigin 0) oneBar oneOut.datetime) rfl (by decide)

/-- Witness for the bucket-range theorem at the two-bar gap input. -/
theorem resample_bucket_range_witness :
    (∀ b : Nat,
      (∃ k : Nat, ∃ ob : Bar, gapOut[k]? = some ob ∧ ob.datetime = b) ↔
        (bucketStart (seriesOrigin 0) 5 0 ≤ b ∧
         b ≤ bucketStart (seriesOrigin 0) 5 10 ∧
         bucketStart (seriesOrigin 0) 5 b = b)) ∧
    (∀ (k : Nat) (ob : Bar), gapOut[k]? = some ob →
      bucketBars 5 (seriesOrigin 0) gapBars ob.datetime = [] →
      ob.«open» = none ∧ ob.high = none ∧ ob.low = none ∧ ob.close = none ∧
        ob.volume = 0 ∧ ob.dividends = 0 ∧ ob.stock_splits = 0) :=
  resample_bucket_range gapBars "5M" 5 rfl (by decide) 0 10 rfl rfl
    gapOut resample_gapBars

/-- Witness for the chained-resampling theorem at the empty base series. -/
theorem collect_chained_witness :
    Collector.collectUploads [] =
      some [("1M", []), ("5M", []), ("1H", []), ("1D", [])] :=
  collect_chained [] [] [] [] rfl rfl rfl

/-- Witness for volume conservation at the one-bar input. -/
theorem resample_conserves_volume_witness :
    (([oneOut] : BarSeries).map (·.volume)).sum =
      (oneBar.map (·.volume)).sum :=
  resample_conserves_volume oneBar "5M" 5 rfl (by decide)
    [oneOut] resample_oneBar

/-- Witness for the partition theorem at the one-bar input, specialized to
its single bar. -/
theorem resample_partition_witness :
    ∃! k : Nat, ∃ ob : Bar,
      ([oneOut] : BarSeries)[k]? = some ob ∧
      scnBar 0 ∈ bucketBars 5 (seriesOrigin 0) oneBar ob.datetime :=
  resample_partition oneBar "5M" 5 rfl (by decide) 0 rfl
    [oneOut] resample_oneBar (scnBar 0) (List.mem_cons_self _ _)

/-- Witness for determinism at a concrete input. -/
theorem resample_deterministic_witness :
    Resampler.resample oneBar "5M" = Resampler.resample oneBar "5M" :=
  resample_deterministic oneBar oneBar "5M" "5M" rfl rfl

/-- Witness for the empty-series theorem at the 5-minute interval. -/
theorem resample_empty_witness : Resampler.resample [] "5M" = some [] :=
  resample_empty "5M" (by decide)
